import Mathlib

/-!
Verification of the rabble cluster server (src/cluster/server.rs).

The development shallowly embeds the cluster server state machine: the
connection table, the established index, the membership set, the timing
wheel and the message handlers, and proves the behavioural properties of
the duplicate-link resolver, the reconciliation loop, the gossip
dissemination, the error handling of readiness batches and the routing of
envelopes.

Byte strings are modelled as lists of naturals, socket handles and
reactor ids as naturals.  Frames travel as their decoded values: the
msgpack encoder and decoder are external collaborators, assumed total on
well-formed input, so a written frame is recorded as the message it
encodes.  Writes are modelled as immediately flushed; the per-connection
read/decode failure of a framed reader is modelled by the incoming field
of a connection holding an error.
-/

namespace Rabble

/-- Contents of a Rust String, compared byte-lexicographically as the
derived Ord on String does. -/
abbrev Bytes := List Nat

/-- Byte-lexicographic strict order on byte strings (Rust derived Ord on
String / Vec of u8). -/
def bytesLt : Bytes → Bytes → Bool
  | [], [] => false
  | [], _ :: _ => true
  | _ :: _, [] => false
  | a :: as, b :: bs => a < b || (a == b && bytesLt as bs)

/-- NodeId from node_id.rs: name and address, with the derived
lexicographic order (name first, then addr). -/
structure NodeId where
  name : Bytes
  addr : Bytes
deriving DecidableEq

/-- The derived Ord comparison on NodeId: lexicographic on name then
addr, exactly as Rust derives it for struct NodeId. -/
def NodeId.lt (x y : NodeId) : Bool :=
  bytesLt x.name y.name || (x.name == y.name && bytesLt x.addr y.addr)

theorem bytesLt_irrefl (x : Bytes) : bytesLt x x = false := by
  induction x with
  | nil => rfl
  | cons a as ih => simp [bytesLt, ih]

theorem bytesLt_asymm (x y : Bytes) (h : bytesLt x y = true) : bytesLt y x = false := by
  induction x generalizing y with
  | nil =>
    cases y with
    | nil => simp [bytesLt] at h
    | cons b bs => rfl
  | cons a as ih =>
    cases y with
    | nil => simp [bytesLt] at h
    | cons b bs =>
      simp only [bytesLt, Bool.or_eq_true, Bool.and_eq_true, beq_iff_eq,
        decide_eq_true_eq] at h
      rcases h with h | ⟨rfl, h⟩
      · have h1 : ¬ b < a := by omega
        have h2 : b ≠ a := by omega
        simp [bytesLt, h1, h2]
      · simp [bytesLt, Nat.lt_irrefl, ih bs h]

theorem bytesLt_ne (x y : Bytes) (h : bytesLt x y = true) : x ≠ y := by
  intro he
  rw [he, bytesLt_irrefl] at h
  exact Bool.false_ne_true h

theorem NodeId.lt_irrefl (x : NodeId) : NodeId.lt x x = false := by
  simp [NodeId.lt, bytesLt_irrefl]

theorem NodeId.lt_asymm (x y : NodeId) (h : NodeId.lt x y = true) :
    NodeId.lt y x = false := by
  simp only [NodeId.lt, Bool.or_eq_true, Bool.and_eq_true, beq_iff_eq] at h
  rcases h with h | ⟨hn, h⟩
  · have h1 := bytesLt_asymm _ _ h
    have h2 : y.name ≠ x.name := fun he => bytesLt_ne _ _ h he.symm
    simp [NodeId.lt, h1, h2]
  · rw [NodeId.lt, ← hn]
    simp [bytesLt_irrefl, bytesLt_asymm _ _ h]

theorem NodeId.ne_of_lt (x y : NodeId) (h : NodeId.lt x y = true) : x ≠ y := by
  intro he
  rw [he, NodeId.lt_irrefl] at h
  exact Bool.false_ne_true h

/-- Modelled from the spec: pid.rs is not part of the sources.  A Pid
identifies an addressable actor or service and carries its owning NodeId
for routing. -/
structure Pid where
  name : Bytes
  group : Option Bytes
  node : NodeId
deriving DecidableEq

/-- Modelled from the spec: correlation_id.rs is not part of the sources.
An opaque request and response correlator; the cluster server reads its
pid field when answering a status request. -/
structure CorrelationId where
  pid : Pid
  handle : Option Nat
  request : Option Nat
deriving DecidableEq

/-- The message body carried by an envelope; only the constructors the
cluster server itself produces or inspects are modelled, plus the user
payload. -/
inductive Msg (T : Type) where
  | user (m : T)
  | getMetrics
  | metrics
  | clusterStatus (members : List NodeId) (established : List NodeId)
      (num_connections : Nat)
deriving DecidableEq

/-- Envelope from envelope.rs, with the optional correlation id the
cluster server constructs in get_status. -/
structure Envelope (T : Type) where
  to_ : Pid
  from_ : Pid
  msg : Msg T
  correlation_id : Option CorrelationId
deriving DecidableEq

/-- Modelled from the spec: orset.rs is not part of the sources.  A delta
is the minimal incremental mutation produced by one add or one leave of a
NodeId. -/
inductive Delta where
  | add (n : NodeId)
  | rm (n : NodeId)
deriving DecidableEq

/-- Modelled from the spec: members.rs and orset.rs are not part of the
sources.  The Member-Set is kept abstractly as the list of currently
present node identifiers; an ORSet snapshot on the wire is modelled as
the membership it denotes. -/
structure Members where
  all : List NodeId
deriving DecidableEq

/-- Modelled from the spec: a fresh replica knows only the local node. -/
def Members.new (node : NodeId) : Members := { all := [node] }

/-- Modelled from the spec: join merges a full snapshot into the local
replica (set union). -/
def Members.join (m : Members) (orset : List NodeId) : Members :=
  { all := m.all ++ orset.filter (fun n => decide (n ∉ m.all)) }

/-- Modelled from the spec: join_delta merges one delta and returns
whether the local membership changed, enabling upstream to suppress
redundant broadcasts. -/
def Members.join_delta (m : Members) : Delta → Members × Bool
  | .add n => if n ∈ m.all then (m, false) else ({ all := m.all ++ [n] }, true)
  | .rm n =>
      if n ∈ m.all then ({ all := m.all.filter (fun x => decide (x ≠ n)) }, true)
      else (m, false)

/-- Modelled from the spec: add inserts a fresh dot for the node and
returns the delta to broadcast. -/
def Members.add (m : Members) (n : NodeId) : Members × Delta :=
  (if n ∈ m.all then m else { all := m.all ++ [n] }, Delta.add n)

/-- Modelled from the spec: leave produces a tombstone delta only if the
node is currently present. -/
def Members.leave (m : Members) (n : NodeId) : Members × Option Delta :=
  if n ∈ m.all then ({ all := m.all.filter (fun x => decide (x ≠ n)) }, some (Delta.rm n))
  else (m, none)

/-- Modelled from the spec: get_orset returns the full state used to
bootstrap a newly connected peer, modelled as the membership snapshot. -/
def Members.get_orset (m : Members) : List NodeId := m.all

/-- The four peer wire protocol message kinds of cluster/msg.rs.  A frame
on the wire is modelled by the message it decodes to. -/
inductive ExternalMsg (T : Type) where
  | members (from_ : NodeId) (orset : List NodeId)
  | ping
  | envelope (e : Envelope T)
  | delta (d : Delta)
deriving DecidableEq

/-- Association-list map with first-match lookup, modelling HashMap. -/
def alook {K V : Type} [DecidableEq K] (k : K) : List (K × V) → Option V
  | [] => none
  | p :: ps => if p.1 = k then some p.2 else alook k ps

/-- HashMap::remove, as erasure of every binding of the key. -/
def aerase {K V : Type} [DecidableEq K] (k : K) (m : List (K × V)) : List (K × V) :=
  m.filter (fun p => decide (p.1 ≠ k))

/-- HashMap::insert, replacing any previous binding of the key. -/
def ains {K V : Type} [DecidableEq K] (k : K) (v : V) (m : List (K × V)) :
    List (K × V) :=
  (k, v) :: aerase k m

theorem alook_ains_self {K V : Type} [DecidableEq K] (k : K) (v : V)
    (m : List (K × V)) : alook k (ains k v m) = some v := by
  simp [ains, alook]

theorem aerase_cons_self {K V : Type} [DecidableEq K] {k : K} {p : K × V}
    (ps : List (K × V)) (h : p.1 = k) : aerase k (p :: ps) = aerase k ps := by
  rw [aerase, List.filter_cons, if_neg (by simp [h])]
  rfl

theorem aerase_cons_ne {K V : Type} [DecidableEq K] {k : K} {p : K × V}
    (ps : List (K × V)) (h : ¬ p.1 = k) : aerase k (p :: ps) = p :: aerase k ps := by
  rw [aerase, List.filter_cons, if_pos (by simp [h])]
  rfl

theorem alook_aerase_self {K V : Type} [DecidableEq K] (k : K) (m : List (K × V)) :
    alook k (aerase k m) = none := by
  induction m with
  | nil => rfl
  | cons p ps ih =>
    by_cases hp : p.1 = k
    · rw [aerase_cons_self ps hp]
      exact ih
    · rw [aerase_cons_ne ps hp, alook, if_neg hp]
      exact ih

theorem alook_aerase_ne {K V : Type} [DecidableEq K] {k k' : K} (m : List (K × V))
    (h : k' ≠ k) : alook k' (aerase k m) = alook k' m := by
  induction m with
  | nil => rfl
  | cons p ps ih =>
    by_cases hp : p.1 = k
    · rw [aerase_cons_self ps hp, alook,
        if_neg (fun he => h (by rw [← he]; exact hp)), ih]
    · rw [aerase_cons_ne ps hp, alook, alook]
      by_cases hpk : p.1 = k'
      · rw [if_pos hpk, if_pos hpk]
      · rw [if_neg hpk, if_neg hpk, ih]

theorem alook_ains_ne {K V : Type} [DecidableEq K] {k k' : K} (v : V)
    (m : List (K × V)) (h : k' ≠ k) : alook k' (ains k v m) = alook k' m := by
  rw [ains, alook, if_neg (fun hc => h hc.symm), alook_aerase_ne m h]

theorem keys_nodup_aerase {K V : Type} [DecidableEq K] (k : K) (m : List (K × V))
    (h : (m.map Prod.fst).Nodup) : ((aerase k m).map Prod.fst).Nodup := by
  exact List.Nodup.sublist (List.Sublist.map Prod.fst (List.filter_sublist m)) h

theorem keys_nodup_ains {K V : Type} [DecidableEq K] (k : K) (v : V)
    (m : List (K × V)) (h : (m.map Prod.fst).Nodup) :
    ((ains k v m).map Prod.fst).Nodup := by
  rw [ains, List.map_cons]
  refine List.Nodup.cons ?_ (keys_nodup_aerase k m h)
  intro hmem
  rcases List.mem_map.1 hmem with ⟨p, hp, hpk⟩
  rcases List.mem_filter.1 hp with ⟨_, hdec⟩
  simp only [decide_eq_true_eq] at hdec
  exact hdec hpk

/-- Modelled from the spec: timer_wheel.rs is not part of the sources.
A ring of buckets; insert places an id in the freshest bucket (the one
the current index points at) and returns its slot; remove deletes the id
from the given slot; expire advances the ring by one tick and returns the
ids left in the bucket that rotated to oldest. -/
structure TimerWheel where
  buckets : List (List Nat)
  current : Nat
deriving DecidableEq

def TimerWheel.insert (w : TimerWheel) (id : Nat) : TimerWheel × Nat :=
  ({ w with buckets := w.buckets.set w.current (id :: w.buckets.getD w.current []) },
   w.current)

def TimerWheel.remove (w : TimerWheel) (id : Nat) (slot : Nat) : TimerWheel :=
  { w with buckets :=
      w.buckets.set slot ((w.buckets.getD slot []).filter (fun x => decide (x ≠ id))) }

def TimerWheel.expire (w : TimerWheel) : TimerWheel × List Nat :=
  ({ w with current := (w.current + 1) % w.buckets.length,
            buckets := w.buckets.set ((w.current + 1) % w.buckets.length) [] },
   w.buckets.getD ((w.current + 1) % w.buckets.length) [])

/-- One per-socket connection record (struct Conn in cluster/server.rs).
The framed reader is modelled by incoming: either the frames it will
deliver on the next read, or a pending read/decode failure; the framed
writer is modelled by written, the frames flushed so far. -/
structure Conn (T : Type) where
  sock : Nat
  node : Option NodeId
  is_client : Bool
  members_sent : Bool
  timer_wheel_index : Nat
  incoming : Except Bytes (List (ExternalMsg T))
  written : List (ExternalMsg T)

/-- Conn::new: members not sent yet, a fake timer slot, client exactly
when the peer is known a priori. -/
def Conn.new (T : Type) (sock : Nat) (node : Option NodeId) (is_client : Bool) :
    Conn T :=
  { sock := sock, node := node, is_client := is_client, members_sent := false,
    timer_wheel_index := 0, incoming := Except.ok [], written := [] }

/-- A readiness event from the amy reactor. -/
inductive Ev where
  | readable
  | writable
  | both
deriving DecidableEq

/-- A readiness notification tagged with the reactor id it concerns. -/
structure Notif where
  id : Nat
  event : Ev
deriving DecidableEq

/-- Modelled from the spec: errors.rs is not part of the sources.  Error
kinds carry the offending connection id and peer; aggregate kinds carry
the individual errors of one readiness batch or one broadcast. -/
inductive ErrKind where
  | encodeE (id : Option Nat) (node : Option NodeId)
  | decodeE (id : Nat) (node : Option NodeId)
  | readE (id : Nat) (node : Option NodeId)
  | writeE (id : Nat) (node : Option NodeId)
  | registrarE (id : Option Nat) (node : Option NodeId)
  | sendE
  | connectE (node : NodeId)
  | shutdownE
  | pollNotificationErrors (errs : List ErrKind)
  | broadcastE (errs : List ErrKind)

mutual

/-- Modelled from the spec: every I/O error is attributed to the specific
connection id(s) it concerns; get_ids collects them, descending into the
aggregated batch errors. -/
def ErrKind.get_ids : ErrKind → List Nat
  | .encodeE (some id) _ => [id]
  | .encodeE none _ => []
  | .decodeE id _ => [id]
  | .readE id _ => [id]
  | .writeE id _ => [id]
  | .registrarE (some id) _ => [id]
  | .registrarE none _ => []
  | .sendE => []
  | .connectE _ => []
  | .shutdownE => []
  | .pollNotificationErrors errs => ErrKind.get_ids_list errs
  | .broadcastE errs => ErrKind.get_ids_list errs

/-- The ids of a list of errors, in order. -/
def ErrKind.get_ids_list : List ErrKind → List Nat
  | [] => []
  | e :: es => e.get_ids ++ ErrKind.get_ids_list es

end

/-- The error kinds the run loop treats as fatal (it breaks out of the
processing loop after closing the attributed connections). -/
def ErrKind.fatal : ErrKind → Bool
  | .encodeE _ _ => true
  | .decodeE _ _ => true
  | .registrarE _ _ => true
  | .sendE => true
  | .shutdownE => true
  | _ => false

/-- Observable actions of the cluster server toward the reactor, the OS
and the executor channel. -/
inductive Effect (T : Type) where
  | deregister (sock : Nat)
  | connectAttempt (node : NodeId)
  | toExecutor (e : Envelope T)
  | executorTick
deriving DecidableEq

/-- Control messages consumed from the host runtime (cluster/msg.rs plus
the GetStatus request handled in server.rs). -/
inductive ClusterMsg (T : Type) where
  | pollNotifications (ns : List Notif)
  | joinReq (n : NodeId)
  | leaveReq (n : NodeId)
  | envelope (e : Envelope T)
  | getStatus (c : CorrelationId)
  | shutdownMsg

/-- The state of struct ClusterServer: local identity, membership
replica, connection table keyed by reactor id, established index, timing
wheel, the reactor ids of the listener and the two interval timers, the
next fresh reactor id, and the sockets waiting in the listener accept
queue. -/
structure ClusterServer (T : Type) where
  pid : Pid
  node : NodeId
  members : Members
  connections : List (Nat × Conn T)
  established : List (NodeId × Nat)
  timer_wheel : TimerWheel
  listener_id : Nat
  timer_id : Nat
  executor_timer_id : Nat
  next_id : Nat
  pending_accepts : List Nat

variable {T : Type}

/-- conn_write of server.rs: flush a frame on a connection.  The model
treats the framed writer as always immediately writable, so frames land
on written and the write-interest re-registration is dropped. -/
def conn_write (conn : Conn T) (msg : Option (ExternalMsg T)) : Conn T :=
  match msg with
  | some m => { conn with written := conn.written ++ [m] }
  | none => conn

/-- ClusterServer::write — look the connection up and flush the optional
frame; unknown ids are ignored. -/
def write (s : ClusterServer T) (id : Nat) (msg : Option (ExternalMsg T)) :
    ClusterServer T :=
  match alook id s.connections with
  | none => s
  | some conn => { s with connections := ains id (conn_write conn msg) s.connections }

/-- ClusterServer::members_sent — some true / some false when the
connection exists, none when it does not. -/
def members_sent (s : ClusterServer T) (id : Nat) : Option Bool :=
  (alook id s.connections).map Conn.members_sent

/-- ClusterServer::choose_connection_to_close — the duplicate-link
resolver: keep the connection whose client side sorts greater. -/
def choose_connection_to_close (s : ClusterServer T) (id : Nat) (from_ : NodeId) :
    Option Nat :=
  match alook from_ s.established with
  | some saved_id =>
    match alook saved_id s.connections with
    | some saved_conn =>
        if (saved_conn.is_client && NodeId.lt s.node from_) ||
           (!saved_conn.is_client && NodeId.lt from_ s.node)
        then some saved_id else some id
    | none => none
  | none => none

/-- ClusterServer::close — remove the connection, deregister its socket,
drop its timing-wheel slot, and fix up the established index (removing
the entry only when it refers to this very connection). -/
def close (s : ClusterServer T) (id : Nat) : ClusterServer T × List (Effect T) :=
  match alook id s.connections with
  | none => (s, [])
  | some conn =>
    let s1 : ClusterServer T :=
      { s with connections := aerase id s.connections,
               timer_wheel := s.timer_wheel.remove id conn.timer_wheel_index }
    match conn.node with
    | none => (s1, [Effect.deregister conn.sock])
    | some node =>
      match alook node s1.established with
      | none => (s1, [Effect.deregister conn.sock])
      | some established_id =>
        if established_id = id then
          ({ s1 with established := aerase node s1.established },
           [Effect.deregister conn.sock])
        else
          ({ s1 with established := ains node established_id (aerase node s1.established) },
           [Effect.deregister conn.sock])

/-- The tail of establish_connection after duplicate resolution: record
the peer identity on the connection, refresh its timing-wheel slot and
make it the authoritative entry of the established index. -/
def establish_insert (s : ClusterServer T) (id : Nat) (from_ : NodeId) :
    ClusterServer T :=
  match alook id s.connections with
  | none => s
  | some conn =>
    let wi := (s.timer_wheel.remove id conn.timer_wheel_index).insert id
    { s with
      connections :=
        ains id { conn with node := some from_, timer_wheel_index := wi.2 } s.connections,
      timer_wheel := wi.1,
      established := ains from_ id s.established }

/-- ClusterServer::establish_connection — merge the peer snapshot, run
the duplicate-link resolver, close the loser, and establish the new
connection unless it was the one closed. -/
def establish_connection (s : ClusterServer T) (id : Nat) (from_ : NodeId)
    (orset : List NodeId) : ClusterServer T × List (Effect T) :=
  let s0 : ClusterServer T := { s with members := s.members.join orset }
  match choose_connection_to_close s0 id from_ with
  | some close_id =>
    let p := close s0 close_id
    if close_id = id then p
    else (establish_insert p.1 id from_, p.2)
  | none => (establish_insert s0 id from_, [])

/-- ClusterServer::reset_timer — move the connection from its current
timing-wheel slot to the freshest bucket. -/
def reset_timer (s : ClusterServer T) (id : Nat) : ClusterServer T :=
  match alook id s.connections with
  | none => s
  | some conn =>
    let wi := (s.timer_wheel.remove id conn.timer_wheel_index).insert id
    { s with timer_wheel := wi.1,
             connections := ains id { conn with timer_wheel_index := wi.2 } s.connections }

/-- ClusterServer::decode_messages — drain the framed reader of the
connection; a read or decode failure is reported as the decode error of
that connection. -/
def decode_messages (s : ClusterServer T) (id : Nat) :
    Except ErrKind (ClusterServer T × List (ExternalMsg T)) :=
  match alook id s.connections with
  | none => Except.ok (s, [])
  | some conn =>
    match conn.incoming with
    | Except.error _ => Except.error (ErrKind.decodeE id conn.node)
    | Except.ok msgs =>
      Except.ok
        ({ s with connections := ains id { conn with incoming := Except.ok [] } s.connections },
         msgs)

/-- ClusterServer::init_connection — register the socket (obtaining the
next fresh reactor id), build the record and give it a fresh
timing-wheel slot. -/
def init_connection (s : ClusterServer T) (sock : Nat) (node : Option NodeId) :
    ClusterServer T × Nat :=
  let id := s.next_id
  let conn := Conn.new T sock node node.isSome
  let wi := s.timer_wheel.insert id
  ({ s with next_id := id + 1,
            timer_wheel := wi.1,
            connections := ains id { conn with timer_wheel_index := wi.2 } s.connections },
   id)

/-- ClusterServer::connect — open a non-blocking outgoing socket to the
node and initialise the connection record with the peer known a
priori. -/
def connect (s : ClusterServer T) (node : NodeId) : ClusterServer T × List (Effect T) :=
  let p := init_connection s s.next_id (some node)
  (p.1, [Effect.connectAttempt node])

/-- The for-loop of check_connections issuing one connect per
to_connect entry. -/
def connect_all : ClusterServer T → List NodeId → ClusterServer T × List (Effect T)
  | s, [] => (s, [])
  | s, n :: rest =>
    let p := connect s n
    let q := connect_all p.1 rest
    (q.1, p.2 ++ q.2)

/-- ClusterServer::send_members — encode the local membership snapshot,
flush it on the connection and mark members_sent. -/
def send_members (s : ClusterServer T) (id : Nat) : ClusterServer T :=
  match alook id s.connections with
  | none => s
  | some conn =>
    { s with connections :=
        (ains id
          { conn with
            written := conn.written ++ [ExternalMsg.members s.node s.members.get_orset],
            members_sent := true }
          s.connections) }

/-- The accept loop of ClusterServer::accept_connection: initialise each
queued socket and immediately send the membership snapshot on it. -/
def accept_all : ClusterServer T → List Nat → ClusterServer T
  | s, [] => s
  | s, sock :: rest =>
    let p := init_connection s sock none
    accept_all (send_members p.1 p.2) rest

/-- ClusterServer::accept_connection — drain the listener queue. -/
def accept_connection (s : ClusterServer T) : ClusterServer T :=
  accept_all { s with pending_accepts := [] } s.pending_accepts

/-- ClusterServer::broadcast — write the frame to every connection whose
membership snapshot has already been sent; not-yet-connected records are
skipped. -/
def broadcast (s : ClusterServer T) (encoded : ExternalMsg T) : ClusterServer T :=
  { s with connections := s.connections.map (fun p =>
      if p.2.members_sent then (p.1, { p.2 with written := p.2.written ++ [encoded] })
      else p) }

/-- ClusterServer::broadcast_delta. -/
def broadcast_delta (s : ClusterServer T) (d : Delta) : ClusterServer T :=
  broadcast s (ExternalMsg.delta d)

/-- ClusterServer::broadcast_pings. -/
def broadcast_pings (s : ClusterServer T) : ClusterServer T :=
  broadcast s ExternalMsg.ping

/-- The known peer identities of pending, client-connected or
established connections (check_connections). -/
def known_peer_conns (s : ClusterServer T) : List NodeId :=
  (s.connections.filterMap (fun p => p.2.node)).dedup

/-- Members::all as the deduplicated membership list. -/
def members_all (s : ClusterServer T) : List NodeId :=
  s.members.all.dedup

/-- The to_connect diff of check_connections: desired minus known peers
minus the local node. -/
def to_connect (s : ClusterServer T) : List NodeId :=
  (members_all s).filter (fun n => decide (n ∉ known_peer_conns s) && decide (n ≠ s.node))

/-- The to_disconnect diff of check_connections: known peers minus
desired. -/
def to_disconnect (s : ClusterServer T) : List NodeId :=
  (known_peer_conns s).filter (fun n => decide (n ∉ members_all s))

/-- ClusterServer::disconnect_all — self-eviction: empty the established
index, drain the connection table, removing every timing-wheel slot and
deregistering every socket. -/
def disconnect_all (s : ClusterServer T) : ClusterServer T × List (Effect T) :=
  ({ s with established := [],
            connections := [],
            timer_wheel :=
              s.connections.foldl (fun w p => w.remove p.1 p.2.timer_wheel_index)
                s.timer_wheel },
   s.connections.map (fun p => Effect.deregister p.2.sock))

/-- ClusterServer::disconnect_established — for each listed peer, remove
its established entry if any and tear the corresponding connection down.
Rust unwraps the connection record; under the established-index
invariant it is always present, and the model skips otherwise. -/
def disconnect_established : ClusterServer T → List NodeId → ClusterServer T × List (Effect T)
  | s, [] => (s, [])
  | s, node :: rest =>
    match alook node s.established with
    | none => disconnect_established s rest
    | some id =>
      let s1 : ClusterServer T := { s with established := aerase node s.established }
      match alook id s1.connections with
      | none => disconnect_established s1 rest
      | some conn =>
        let s2 : ClusterServer T :=
          { s1 with connections := aerase id s1.connections,
                    timer_wheel := s1.timer_wheel.remove id conn.timer_wheel_index }
        let q := disconnect_established s2 rest
        (q.1, Effect.deregister conn.sock :: q.2)

/-- ClusterServer::check_connections — the reconciliation pass: if the
local node was evicted, close everything; otherwise connect to each
missing desired peer and disconnect the established peers that are no
longer desired. -/
def check_connections (s : ClusterServer T) : ClusterServer T × List (Effect T) :=
  if s.node ∈ members_all s then
    let tc := to_connect s
    let td := to_disconnect s
    let p := connect_all s tc
    let q := disconnect_established p.1 td
    (q.1, p.2 ++ q.2)
  else disconnect_all s

/-- ClusterServer::deregister and the run-level error cleanup: close a
list of connection ids, one after the other. -/
def close_all : ClusterServer T → List Nat → ClusterServer T × List (Effect T)
  | s, [] => (s, [])
  | s, id :: rest =>
    let p := close s id
    let q := close_all p.1 rest
    (q.1, p.2 ++ q.2)

/-- ClusterServer::tick — expire the timing wheel, close the expired
connections, broadcast pings and reconcile. -/
def tick (s : ClusterServer T) : ClusterServer T × List (Effect T) :=
  let we := s.timer_wheel.expire
  let p := close_all { s with timer_wheel := we.1 } we.2
  let q := check_connections (broadcast_pings p.1)
  (q.1, p.2 ++ q.2)

/-- ClusterServer::tick_executor — forward the executor tick. -/
def tick_executor (s : ClusterServer T) : ClusterServer T × List (Effect T) :=
  (s, [Effect.executorTick])

/-- ClusterServer::handle_decoded_message — dispatch one decoded
frame. -/
def handle_decoded_message (s : ClusterServer T) (id : Nat) :
    ExternalMsg T → ClusterServer T × List (Effect T)
  | .members from_ orset =>
    let p := establish_connection s id from_ orset
    let q := check_connections p.1
    (q.1, p.2 ++ q.2)
  | .ping => (reset_timer s id, [])
  | .envelope e => (s, [Effect.toExecutor e])
  | .delta d =>
    let jd := s.members.join_delta d
    if jd.2 then (broadcast_delta { s with members := jd.1 } d, [])
    else ({ s with members := jd.1 }, [])

/-- The frame loop of ClusterServer::read. -/
def handle_decoded_messages :
    ClusterServer T → Nat → List (ExternalMsg T) → ClusterServer T × List (Effect T)
  | s, _, [] => (s, [])
  | s, id, m :: rest =>
    let p := handle_decoded_message s id m
    let q := handle_decoded_messages p.1 id rest
    (q.1, p.2 ++ q.2)

/-- ClusterServer::read — before the membership snapshot has been sent a
read-readiness event sends it instead of reading; afterwards frames are
decoded and dispatched. -/
def read (s : ClusterServer T) (id : Nat) :
    Except ErrKind (ClusterServer T × List (Effect T)) :=
  match members_sent s id with
  | some false => Except.ok (send_members s id, [])
  | none => Except.ok (s, [])
  | some true =>
    match decode_messages s id with
    | Except.error e => Except.error e
    | Except.ok p => Except.ok (handle_decoded_messages p.1 id p.2)

/-- ClusterServer::do_socket_io. -/
def do_socket_io (s : ClusterServer T) (n : Notif) :
    Except ErrKind (ClusterServer T × List (Effect T)) :=
  match n.event with
  | .readable => read s n.id
  | .writable => Except.ok (write s n.id none, [])
  | .both =>
    match read s n.id with
    | Except.error e => Except.error e
    | Except.ok p => Except.ok (write p.1 n.id none, p.2)

/-- The per-notification dispatch of handle_poll_notifications:
listener accept, coarse tick, executor tick, or socket I/O. -/
def dispatch_notification (s : ClusterServer T) (n : Notif) :
    Except ErrKind (ClusterServer T × List (Effect T)) :=
  if n.id = s.listener_id then Except.ok (accept_connection s, [])
  else if n.id = s.timer_id then Except.ok (tick s)
  else if n.id = s.executor_timer_id then tick_executor s |> Except.ok
  else do_socket_io s n

/-- ClusterServer::handle_poll_notifications — every notification of the
batch is processed; the errors are collected on the side and do not stop
the batch. -/
def handle_poll_notifications :
    ClusterServer T → List Notif → ClusterServer T × List (Effect T) × List ErrKind
  | s, [] => (s, [], [])
  | s, n :: rest =>
    match dispatch_notification s n with
    | Except.ok p =>
      let q := handle_poll_notifications p.1 rest
      (q.1, p.2 ++ q.2.1, q.2.2)
    | Except.error e =>
      let q := handle_poll_notifications s rest
      (q.1, q.2.1, e :: q.2.2)

/-- ClusterServer::send_remote — look the destination node up in the
established index; if present encode and write the envelope on exactly
that connection, otherwise silently drop it. -/
def send_remote (s : ClusterServer T) (e : Envelope T) : ClusterServer T :=
  match alook e.to_.node s.established with
  | none => s
  | some id => write s id (some (ExternalMsg.envelope e))

/-- The status reply built by ClusterServer::get_status. -/
def get_status (s : ClusterServer T) (c : CorrelationId) : Envelope T :=
  { to_ := c.pid, from_ := s.pid,
    msg := Msg.clusterStatus s.members.all (s.established.map Prod.fst)
      s.connections.length,
    correlation_id := some c }

/-- ClusterServer::send_metrics — answer a metrics request addressed to
the server itself; anything else is only logged. -/
def send_metrics (s : ClusterServer T) (e : Envelope T) :
    ClusterServer T × List (Effect T) :=
  match e.msg with
  | Msg.getMetrics =>
    (s, [Effect.toExecutor
          { to_ := e.from_, from_ := s.pid, msg := Msg.metrics,
            correlation_id := e.correlation_id }])
  | _ => (s, [])

/-- ClusterServer::join — add the node to the membership, broadcast the
delta and immediately attempt to connect. -/
def join (s : ClusterServer T) (node : NodeId) : ClusterServer T × List (Effect T) :=
  let ad := s.members.add node
  connect (broadcast_delta { s with members := ad.1 } ad.2) node

/-- ClusterServer::leave — broadcast a tombstone delta when the node was
present. -/
def leave (s : ClusterServer T) (node : NodeId) : ClusterServer T :=
  let lv := s.members.leave node
  match lv.2 with
  | some d => broadcast_delta { s with members := lv.1 } d
  | none => s

/-- ClusterServer::handle_cluster_msg — dispatch one control message;
the state component always reflects the work done before any failure. -/
def handle_cluster_msg (s : ClusterServer T) :
    ClusterMsg T → ClusterServer T × List (Effect T) × Option ErrKind
  | .pollNotifications ns =>
    let q := handle_poll_notifications s ns
    (q.1, q.2.1,
     if q.2.2.isEmpty then none else some (ErrKind.pollNotificationErrors q.2.2))
  | .joinReq n =>
    let p := join s n
    (p.1, p.2, none)
  | .leaveReq n => (leave s n, [], none)
  | .envelope e =>
    if e.to_ = s.pid then
      let p := send_metrics s e
      (p.1, p.2, none)
    else (send_remote s e, [], none)
  | .getStatus c => (s, [Effect.toExecutor (get_status s c)], none)
  | .shutdownMsg => (s, [], some ErrKind.shutdownE)

/-- One iteration of ClusterServer::run — handle the control message;
on error close every attributed connection, then decide whether the loop
continues (true) or breaks (false). -/
def run_step (s : ClusterServer T) (msg : ClusterMsg T) :
    ClusterServer T × List (Effect T) × Bool :=
  let h := handle_cluster_msg s msg
  match h.2.2 with
  | none => (h.1, h.2.1, true)
  | some e =>
    let p := close_all h.1 e.get_ids
    (p.1, h.2.1 ++ p.2, !e.fatal)

/-! Concrete fixtures used by witnesses and counterexamples. -/

def pidOf (n : NodeId) : Pid := { name := [7], group := none, node := n }

def nodeA : NodeId := { name := [0], addr := [0] }

def nodeB : NodeId := { name := [1], addr := [0] }

def nodeC : NodeId := { name := [2], addr := [0] }

def nodeD : NodeId := { name := [3], addr := [0] }

/-- A connection record in the state right after the peer-identity
handshake race: snapshot already sent, quiet reader and writer. -/
def connOf (b : Bool) (p : Option NodeId) (slot : Nat) : Conn Nat :=
  { sock := slot + 40, node := p, is_client := b, members_sent := true,
    timer_wheel_index := slot, incoming := Except.ok [], written := [] }

/-- An endpoint of a symmetric double-connect: connection 0 is the
locally initiated client link, connection 1 the accepted link, and the
established index already holds estId for the peer. -/
def raceState (local_ peer : NodeId) (estId : Nat) (n0 n1 : Option NodeId) :
    ClusterServer Nat :=
  { pid := pidOf local_, node := local_, members := { all := [local_, peer] },
    connections := [(0, connOf true n0 0), (1, connOf false n1 1)],
    established := [(peer, estId)],
    timer_wheel := { buckets := [[0], [1]], current := 0 },
    listener_id := 100, timer_id := 101, executor_timer_id := 102,
    next_id := 2, pending_accepts := [] }

/-- C1: for a newly identified connection (id, peer) with an existing
established connection saved for peer, the resolver closes saved exactly
when (saved.is_client and local < peer) or (not saved.is_client and
peer < local), and otherwise closes the new connection; and for
NodeId A < NodeId B, both endpoints of a simultaneous double-connect
independently retain the connection initiated by B and close the one
initiated by A. -/
theorem C1_duplicate_link_tiebreak :
    (∀ (T : Type) (s : ClusterServer T) (id : Nat) (peer : NodeId) (sid : Nat)
       (saved : Conn T),
       alook peer s.established = some sid →
       alook sid s.connections = some saved →
       choose_connection_to_close s id peer =
         some (if (saved.is_client = true ∧ NodeId.lt s.node peer = true) ∨
                  (saved.is_client = false ∧ NodeId.lt peer s.node = true)
               then sid else id)) ∧
    (∀ A B : NodeId, NodeId.lt A B = true →
       (alook B ((establish_connection (raceState A B 0 (some B) none) 1 B []).1).established
          = some 1 ∧
        alook 0 ((establish_connection (raceState A B 0 (some B) none) 1 B []).1).connections
          = none) ∧
       (alook B ((establish_connection (raceState A B 1 (some B) (some B)) 0 B []).1).established
          = some 1 ∧
        alook 0 ((establish_connection (raceState A B 1 (some B) (some B)) 0 B []).1).connections
          = none) ∧
       (alook A ((establish_connection (raceState B A 0 (some A) none) 1 A []).1).established
          = some 0 ∧
        alook 1 ((establish_connection (raceState B A 0 (some A) none) 1 A []).1).connections
          = none) ∧
       (alook A ((establish_connection (raceState B A 1 (some A) (some A)) 0 A []).1).established
          = some 0 ∧
        alook 1 ((establish_connection (raceState B A 1 (some A) (some A)) 0 A []).1).connections
          = none)) := by
  constructor
  · intro T s id peer sid saved h1 h2
    simp only [choose_connection_to_close, h1, h2]
    cases hc : saved.is_client with
    | true =>
      by_cases hl : NodeId.lt s.node peer = true
      · simp [hc, hl]
      · rw [Bool.not_eq_true] at hl
        simp [hc, hl]
    | false =>
      by_cases hl : NodeId.lt peer s.node = true
      · simp [hc, hl]
      · rw [Bool.not_eq_true] at hl
        simp [hc, hl]
  · intro A B hAB
    have hBA : NodeId.lt B A = false := NodeId.lt_asymm A B hAB
    have hne : A ≠ B := NodeId.ne_of_lt A B hAB
    have hne' : B ≠ A := fun h => hne h.symm
    refine ⟨⟨?_, ?_⟩, ⟨?_, ?_⟩, ⟨?_, ?_⟩, ⟨?_, ?_⟩⟩ <;>
      simp [establish_connection, choose_connection_to_close, close, establish_insert,
        raceState, connOf, alook, aerase, ains, Members.join, hAB, hBA, hne, hne',
        TimerWheel.remove, TimerWheel.insert]

/-- Witness for C1 at the concrete pair nodeA < nodeB: the resolver
closes the saved client connection 0 of the lower endpoint, and the
lower endpoint ends up with the accepted (B-initiated) connection 1
established. -/
theorem C1_duplicate_link_tiebreak_witness :
    choose_connection_to_close (raceState nodeA nodeB 0 (some nodeB) none) 1 nodeB =
      some 0 ∧
    alook nodeB
        ((establish_connection (raceState nodeA nodeB 0 (some nodeB) none) 1 nodeB
          []).1).established = some 1 := by
  constructor
  · have h := C1_duplicate_link_tiebreak.1 Nat
      (raceState nodeA nodeB 0 (some nodeB) none) 1 nodeB 0
      (connOf true (some nodeB) 0) rfl rfl
    rw [h]
    decide
  · exact ((C1_duplicate_link_tiebreak.2 nodeA nodeB (by decide)).1).1

/-- The peers for which a batch of effects issues outgoing connection
attempts, in order. -/
def connect_attempts (effs : List (Effect T)) : List NodeId :=
  effs.filterMap (fun e =>
    match e with
    | Effect.connectAttempt n => some n
    | _ => none)

theorem connect_attempts_append (a b : List (Effect T)) :
    connect_attempts (a ++ b) = connect_attempts a ++ connect_attempts b := by
  simp [connect_attempts]

theorem connect_all_attempts (l : List NodeId) :
    ∀ s : ClusterServer T, connect_attempts (connect_all s l).2 = l := by
  induction l with
  | nil => intro s; rfl
  | cons n rest ih =>
    intro s
    rw [connect_all]
    rw [connect_attempts_append]
    rw [ih]
    rfl

theorem disconnect_established_attempts (l : List NodeId) :
    ∀ s : ClusterServer T, connect_attempts (disconnect_established s l).2 = [] := by
  induction l with
  | nil => intro s; rfl
  | cons n rest ih =>
    intro s
    rw [disconnect_established]
    cases h1 : alook n s.established with
    | none => exact ih s
    | some id =>
      dsimp only
      cases h2 : alook id s.connections with
      | none => exact ih _
      | some conn =>
        dsimp only
        exact ih _

/-- C2: on a reconciliation pass where the local node is a member, the
to_connect set is the membership minus known peers minus the local node,
the to_disconnect set is the known peers minus the membership, and
exactly one outgoing connection attempt is issued per to_connect
entry. -/
theorem C2_reconciliation_diff (T : Type) (s : ClusterServer T)
    (h : s.node ∈ members_all s) :
    connect_attempts (check_connections s).2 = to_connect s ∧
    (∀ n, n ∈ to_connect s ↔
      (n ∈ members_all s ∧ n ∉ known_peer_conns s ∧ n ≠ s.node)) ∧
    (∀ n, n ∈ to_disconnect s ↔ (n ∈ known_peer_conns s ∧ n ∉ members_all s)) ∧
    (to_connect s).Nodup ∧ (to_disconnect s).Nodup := by
  refine ⟨?_, ?_, ?_, ?_, ?_⟩
  · rw [check_connections, if_pos h]
    rw [connect_attempts_append, connect_all_attempts, disconnect_established_attempts]
    simp
  · intro n
    simp [to_connect, List.mem_filter]
  · intro n
    simp [to_disconnect, List.mem_filter]
  · exact List.Nodup.filter _ (List.nodup_dedup _)
  · exact List.Nodup.filter _ (List.nodup_dedup _)

/-- The reconciliation fixture for the C2 witness: local nodeA, desired
membership nodeA, nodeB, nodeC, and a single client connection to
nodeB. -/
def cs2 : ClusterServer Nat :=
  { pid := pidOf nodeA, node := nodeA, members := { all := [nodeA, nodeB, nodeC] },
    connections := [(0, connOf true (some nodeB) 0)],
    established := [(nodeB, 0)],
    timer_wheel := { buckets := [[0]], current := 0 },
    listener_id := 100, timer_id := 101, executor_timer_id := 102,
    next_id := 1, pending_accepts := [] }

/-- Witness for C2: on the fixture the pass issues exactly the attempt
for nodeC and no disconnects. -/
theorem C2_reconciliation_diff_witness :
    cs2.node ∈ members_all cs2 ∧
    connect_attempts (check_connections cs2).2 = to_connect cs2 ∧
    to_connect cs2 = [nodeC] ∧ to_disconnect cs2 = [] :=
  ⟨by decide, (C2_reconciliation_diff Nat cs2 (by decide)).1, by decide, by decide⟩

/-- The ids held by one bucket of the timing wheel. -/
def wbucket (w : TimerWheel) (b : Nat) : List Nat :=
  w.buckets.getD b []

theorem getD_set_self (l : List (List Nat)) (i : Nat) (a : List Nat) :
    (l.set i a).getD i [] = if i < l.length then a else [] := by
  by_cases h : i < l.length
  · rw [if_pos h, List.getD_eq_getD_get?, List.get?_eq_getElem?,
      List.getElem?_set_self', List.getElem?_eq_getElem h]
    rfl
  · rw [if_neg h, List.getD_eq_default]
    rw [List.length_set]
    omega

theorem getD_set_ne (l : List (List Nat)) (i j : Nat) (a : List Nat) (h : i ≠ j) :
    (l.set i a).getD j [] = l.getD j [] := by
  rw [List.getD_eq_getD_get?, List.getD_eq_getD_get?, List.get?_eq_getElem?,
    List.get?_eq_getElem?, List.getElem?_set_ne h]

theorem mem_wbucket_remove {w : TimerWheel} {x sl y b : Nat}
    (h : y ∈ wbucket (w.remove x sl) b) : y ∈ wbucket w b ∧ (b = sl → y ≠ x) := by
  rw [wbucket, TimerWheel.remove] at h
  by_cases hb : b = sl
  · subst hb
    rw [getD_set_self] at h
    by_cases hlen : b < w.buckets.length
    · rw [if_pos hlen] at h
      rcases List.mem_filter.1 h with ⟨hmem, hdec⟩
      simp only [decide_eq_true_eq] at hdec
      exact ⟨hmem, fun _ => hdec⟩
    · rw [if_neg hlen] at h
      exact absurd h (List.not_mem_nil y)
  · rw [getD_set_ne _ _ _ _ (fun he => hb he.symm)] at h
    exact ⟨h, fun he => absurd he hb⟩

theorem not_mem_wbucket_remove {w : TimerWheel} {x sl y b : Nat}
    (h : y ∉ wbucket w b) : y ∉ wbucket (w.remove x sl) b :=
  fun hc => h (mem_wbucket_remove hc).1

theorem not_mem_wbucket_remove_self (w : TimerWheel) (x sl : Nat) (b : Nat) :
    (∀ b', x ∈ wbucket w b' → b' = sl) → x ∉ wbucket (w.remove x sl) b := by
  intro hw hc
  rcases mem_wbucket_remove hc with ⟨hmem, hne⟩
  exact hne (hw b hmem) rfl

theorem fold_remove_not_mem (l : List (Nat × Conn T)) (y b : Nat) :
    ∀ w : TimerWheel, y ∉ wbucket w b →
      y ∉ wbucket (l.foldl (fun w p => w.remove p.1 p.2.timer_wheel_index) w) b := by
  induction l with
  | nil => intro w h; exact h
  | cons q rest ih =>
    intro w h
    exact ih _ (not_mem_wbucket_remove h)

theorem fold_remove_clears (l : List (Nat × Conn T)) :
    ∀ w : TimerWheel,
      (∀ p ∈ l, ∀ b, p.1 ∈ wbucket w b → b = p.2.timer_wheel_index) →
      ∀ p ∈ l, ∀ b,
        p.1 ∉ wbucket (l.foldl (fun w p => w.remove p.1 p.2.timer_wheel_index) w) b := by
  induction l with
  | nil => intro w _ p hp; exact absurd hp (List.not_mem_nil p)
  | cons q rest ih =>
    intro w hw p hp b
    rw [List.foldl_cons]
    rcases List.mem_cons.1 hp with rfl | hp'
    · exact fold_remove_not_mem rest p.1 b _
        (not_mem_wbucket_remove_self w p.1 p.2.timer_wheel_index b
          (fun b' hb' => hw p (List.mem_cons_self p rest) b' hb'))
    · exact ih _
        (fun r hr b' hb' =>
          hw r (List.mem_cons_of_mem q hr) b' (mem_wbucket_remove hb').1)
        p hp' b

/-- C3: when the local node is not in the membership, the reconciliation
pass empties the connection table and the established index, emits a
deregistration for every connection socket, and (when each connection id
sits only in its recorded slot) leaves no connection id anywhere in the
timing wheel. -/
theorem C3_self_eviction (T : Type) (s : ClusterServer T)
    (h : s.node ∉ members_all s)
    (hw : ∀ p ∈ s.connections, ∀ b,
      p.1 ∈ wbucket s.timer_wheel b → b = p.2.timer_wheel_index) :
    (check_connections s).1.connections = [] ∧
    (check_connections s).1.established = [] ∧
    (∀ p ∈ s.connections, Effect.deregister p.2.sock ∈ (check_connections s).2) ∧
    (∀ p ∈ s.connections, ∀ b, p.1 ∉ wbucket (check_connections s).1.timer_wheel b) := by
  rw [check_connections, if_neg h]
  refine ⟨rfl, rfl, ?_, ?_⟩
  · intro p hp
    exact List.mem_map.2 ⟨p, hp, rfl⟩
  · exact fold_remove_clears s.connections s.timer_wheel hw

/-- The self-eviction fixture: the local node nodeD is no longer in the
membership. -/
def cs3 : ClusterServer Nat :=
  { pid := pidOf nodeD, node := nodeD, members := { all := [nodeA] },
    connections := [(0, connOf true (some nodeA) 0)],
    established := [(nodeA, 0)],
    timer_wheel := { buckets := [[0], []], current := 0 },
    listener_id := 100, timer_id := 101, executor_timer_id := 102,
    next_id := 1, pending_accepts := [] }

/-- Witness for C3 on the fixture. -/
theorem C3_self_eviction_witness :
    cs3.node ∉ members_all cs3 ∧
    (check_connections cs3).1.connections = [] ∧
    (check_connections cs3).1.established = [] := by
  have hw : ∀ p ∈ cs3.connections, ∀ b,
      p.1 ∈ wbucket cs3.timer_wheel b → b = p.2.timer_wheel_index := by
    intro p hp b hb
    rcases List.mem_singleton.1 hp with rfl
    match b with
    | 0 => rfl
    | 1 => simp [wbucket, cs3, connOf, TimerWheel.remove, List.getD] at hb
    | n + 2 =>
      rw [wbucket, List.getD_eq_default] at hb
      · exact absurd hb (List.not_mem_nil _)
      · show cs3.timer_wheel.buckets.length ≤ n + 2
        simp [cs3]
  have h := C3_self_eviction Nat cs3 (by decide) hw
  exact ⟨by decide, h.1, h.2.1⟩

theorem alook_map_if (g : Conn T → Conn T) (cid : Nat) (l : List (Nat × Conn T)) :
    alook cid (l.map (fun p => if p.2.members_sent then (p.1, g p.2) else p)) =
      (alook cid l).map (fun c => if c.members_sent then g c else c) := by
  induction l with
  | nil => rfl
  | cons p ps ih =>
    cases hm : p.2.members_sent with
    | true =>
      by_cases hp : p.1 = cid
      · simp [alook, hm, hp]
      · simp [alook, hm, hp, ih]
    | false =>
      by_cases hp : p.1 = cid
      · simp [alook, hm, hp]
      · simp [alook, hm, hp, ih]

/-- The connection table transformation of one broadcast, seen through
lookup: every members_sent connection gets the frame appended. -/
theorem alook_broadcast (s : ClusterServer T) (m : ExternalMsg T) (cid : Nat) :
    alook cid (broadcast s m).connections =
      (alook cid s.connections).map (fun c =>
        if c.members_sent then { c with written := c.written ++ [m] } else c) := by
  rw [broadcast]
  exact alook_map_if (fun c => { c with written := c.written ++ [m] }) cid s.connections

/-- C4 (amended): a received delta is rebroadcast iff merging it changed
the local membership, and the rebroadcast is written to exactly the
connections whose membership snapshot has been sent — including the
originating connection — with no other effect. -/
theorem C4_delta_gossip (T : Type) (s : ClusterServer T) (id : Nat) (d : Delta) :
    ((handle_decoded_message s id (ExternalMsg.delta d)).1).members =
      (s.members.join_delta d).1 ∧
    (∀ cid c, alook cid s.connections = some c →
      alook cid ((handle_decoded_message s id (ExternalMsg.delta d)).1).connections =
        some (if (s.members.join_delta d).2 && c.members_sent
              then { c with written := c.written ++ [ExternalMsg.delta d] } else c)) ∧
    (handle_decoded_message s id (ExternalMsg.delta d)).2 = [] := by
  cases hjd : (s.members.join_delta d).2 with
  | true =>
    refine ⟨?_, ?_, ?_⟩
    · simp [handle_decoded_message, hjd, broadcast_delta, broadcast]
    · intro cid c hc
      simp [handle_decoded_message, hjd, broadcast_delta, alook_broadcast, hc]
    · simp [handle_decoded_message, hjd]
  | false =>
    refine ⟨?_, ?_, ?_⟩
    · simp [handle_decoded_message, hjd]
    · intro cid c hc
      simp [handle_decoded_message, hjd, hc]
    · simp [handle_decoded_message, hjd]

/-- The gossip fixture: connection 5 is the established originator,
connection 6 a not-yet-established connection that already received the
snapshot; the delta adds the unknown nodeC. -/
def cs4 : ClusterServer Nat :=
  { pid := pidOf nodeA, node := nodeA, members := { all := [nodeA, nodeB] },
    connections := [(5, connOf false (some nodeB) 0), (6, connOf false none 1)],
    established := [(nodeB, 5)],
    timer_wheel := { buckets := [[5], [6]], current := 0 },
    listener_id := 100, timer_id := 101, executor_timer_id := 102,
    next_id := 7, pending_accepts := [] }

/-- Counterexample for C4 as stated: the changed delta arriving on
connection 5 is written back to connection 5 itself (the originator) and
also to the never-established connection 6. -/
theorem C4_counterexample :
    (alook 5 ((handle_decoded_message cs4 5
        (ExternalMsg.delta (Delta.add nodeC))).1).connections).map Conn.written =
      some [ExternalMsg.delta (Delta.add nodeC)] ∧
    (alook 6 ((handle_decoded_message cs4 5
        (ExternalMsg.delta (Delta.add nodeC))).1).connections).map Conn.written =
      some [ExternalMsg.delta (Delta.add nodeC)] := by
  exact ⟨by decide, by decide⟩

/-- Witness for C4 on the fixture: the merge changes the state and the
originating connection 5 is among the receivers. -/
theorem C4_delta_gossip_witness :
    alook 5 cs4.connections = some (connOf false (some nodeB) 0) ∧
    alook 5 ((handle_decoded_message cs4 5
        (ExternalMsg.delta (Delta.add nodeC))).1).connections =
      some (if (cs4.members.join_delta (Delta.add nodeC)).2 &&
               (connOf false (some nodeB) 0).members_sent
            then { connOf false (some nodeB) 0 with
                   written := (connOf false (some nodeB) 0).written ++
                     [ExternalMsg.delta (Delta.add nodeC)] }
            else connOf false (some nodeB) 0) :=
  ⟨rfl, (C4_delta_gossip Nat cs4 5 (Delta.add nodeC)).2.1 5
    (connOf false (some nodeB) 0) rfl⟩

theorem write_established (s : ClusterServer T) (id : Nat) (m : Option (ExternalMsg T)) :
    (write s id m).established = s.established := by
  rw [write]
  cases alook id s.connections with
  | none => rfl
  | some conn => rfl

theorem write_members (s : ClusterServer T) (id : Nat) (m : Option (ExternalMsg T)) :
    (write s id m).members = s.members := by
  rw [write]
  cases alook id s.connections with
  | none => rfl
  | some conn => rfl

theorem alook_write (s : ClusterServer T) (id cid : Nat) (m : ExternalMsg T) (c : Conn T)
    (hc : alook cid s.connections = some c) :
    alook cid (write s id (some m)).connections =
      some (if cid = id then { c with written := c.written ++ [m] } else c) := by
  rw [write]
  by_cases h : cid = id
  · subst h
    rw [hc]
    simp [conn_write, alook_ains_self]
  · cases h2 : alook id s.connections with
    | none => rw [hc, if_neg h]
    | some c2 =>
      show alook cid (ains id (conn_write c2 (some m)) s.connections) = _
      rw [alook_ains_ne _ _ h, hc, if_neg h]

/-- C8: a locally originated envelope not addressed to the server itself
is silently dropped — success, no write, no state change — when its
destination node has no established entry; when an entry id exists, the
encoded envelope is written to exactly that connection and nothing else
changes. -/
theorem C8_silent_drop (T : Type) (s : ClusterServer T) (e : Envelope T)
    (h : e.to_ ≠ s.pid) :
    (alook e.to_.node s.established = none →
      handle_cluster_msg s (ClusterMsg.envelope e) = (s, [], none)) ∧
    (∀ id, alook e.to_.node s.established = some id →
      handle_cluster_msg s (ClusterMsg.envelope e) =
        (write s id (some (ExternalMsg.envelope e)), [], none) ∧
      (write s id (some (ExternalMsg.envelope e))).established = s.established ∧
      (write s id (some (ExternalMsg.envelope e))).members = s.members ∧
      (∀ cid c, alook cid s.connections = some c →
        alook cid (write s id (some (ExternalMsg.envelope e))).connections =
          some (if cid = id then { c with written := c.written ++ [ExternalMsg.envelope e] }
                else c))) := by
  constructor
  · intro hn
    simp only [handle_cluster_msg, if_neg h, send_remote, hn]
  · intro id hid
    refine ⟨?_, write_established s id _, write_members s id _, ?_⟩
    · simp only [handle_cluster_msg, if_neg h, send_remote, hid]
    · intro cid c hc
      exact alook_write s id cid _ c hc

/-- The routing fixture for the C8 witness: nodeB is established on
connection 0, nodeC is not established. -/
def cs8 : ClusterServer Nat :=
  { pid := pidOf nodeA, node := nodeA, members := { all := [nodeA, nodeB] },
    connections := [(0, connOf true (some nodeB) 0)],
    established := [(nodeB, 0)],
    timer_wheel := { buckets := [[0]], current := 0 },
    listener_id := 100, timer_id := 101, executor_timer_id := 102,
    next_id := 1, pending_accepts := [] }

def env8drop : Envelope Nat :=
  { to_ := pidOf nodeC, from_ := pidOf nodeA, msg := Msg.user 3,
    correlation_id := none }

/-- Witness for C8: the envelope to the unestablished nodeC is dropped
with no state change. -/
theorem C8_silent_drop_witness :
    env8drop.to_ ≠ cs8.pid ∧
    handle_cluster_msg cs8 (ClusterMsg.envelope env8drop) = (cs8, [], none) := by
  refine ⟨by decide, ?_⟩
  exact (C8_silent_drop Nat cs8 env8drop (by decide)).1 rfl

/-- C9 (amended): a Ping resets the receiving connection in the timing
wheel — its slot is removed and it is re-inserted into the freshest
bucket — while Envelope and Delta frames leave the timing wheel (indeed
for Envelope the whole state) unchanged. -/
theorem C9_liveness_reset (T : Type) (s : ClusterServer T) :
    (∀ id conn, alook id s.connections = some conn →
      (handle_decoded_message s id ExternalMsg.ping).1 = reset_timer s id ∧
      (handle_decoded_message s id ExternalMsg.ping).2 = [] ∧
      (reset_timer s id).timer_wheel =
        ((s.timer_wheel.remove id conn.timer_wheel_index).insert id).1 ∧
      alook id (reset_timer s id).connections =
        some { conn with timer_wheel_index := s.timer_wheel.current }) ∧
    (∀ id (e : Envelope T),
      (handle_decoded_message s id (ExternalMsg.envelope e)).1 = s) ∧
    (∀ id d,
      (handle_decoded_message s id (ExternalMsg.delta d)).1.timer_wheel =
        s.timer_wheel) := by
  refine ⟨?_, ?_, ?_⟩
  · intro id conn hc
    refine ⟨rfl, rfl, ?_, ?_⟩
    · rw [reset_timer, hc]
    · rw [reset_timer, hc]
      show alook id (ains id _ s.connections) = _
      rw [alook_ains_self]
      rfl
  · intro id e
    rfl
  · intro id d
    rw [handle_decoded_message]
    cases hjd : (s.members.join_delta d).2 with
    | true => simp [hjd, broadcast_delta, broadcast]
    | false => simp [hjd]

/-- The liveness fixture: connection 7 sits in bucket 0 while the
freshest bucket is 1, so a reset would visibly move it. -/
def cs9 : ClusterServer Nat :=
  { pid := pidOf nodeA, node := nodeA, members := { all := [nodeA, nodeB] },
    connections := [(7, connOf false (some nodeB) 0)],
    established := [(nodeB, 7)],
    timer_wheel := { buckets := [[7], []], current := 1 },
    listener_id := 100, timer_id := 101, executor_timer_id := 102,
    next_id := 8, pending_accepts := [] }

def env9 : Envelope Nat :=
  { to_ := pidOf nodeA, from_ := pidOf nodeB, msg := Msg.user 5,
    correlation_id := none }

/-- Counterexample for C9 as stated: a valid Envelope frame leaves the
timing wheel of connection 7 untouched, whereas removing its slot and
re-inserting into the freshest bucket would produce a different
wheel. -/
theorem C9_counterexample :
    (handle_decoded_message cs9 7 (ExternalMsg.envelope env9)).1.timer_wheel =
      cs9.timer_wheel ∧
    cs9.timer_wheel ≠
      ((cs9.timer_wheel.remove 7
          (connOf false (some nodeB) 0).timer_wheel_index).insert 7).1 :=
  ⟨rfl, by decide⟩

/-- Witness for C9: the Ping on connection 7 re-inserts it into the
freshest bucket 1. -/
theorem C9_liveness_reset_witness :
    alook 7 cs9.connections = some (connOf false (some nodeB) 0) ∧
    alook 7 (reset_timer cs9 7).connections =
      some { connOf false (some nodeB) 0 with
             timer_wheel_index := cs9.timer_wheel.current } :=
  ⟨rfl, ((C9_liveness_reset Nat cs9).1 7 (connOf false (some nodeB) 0) rfl).2.2.2⟩

/-- C10: a read-readiness event on a connection whose snapshot is unsent
sends the snapshot and marks members_sent instead of decoding or
dispatching anything (other connections untouched), and a broadcast is
never written to a connection whose snapshot is unsent. -/
theorem C10_snapshot_first (T : Type) (s : ClusterServer T) :
    (∀ id c, alook id s.connections = some c → c.members_sent = false →
      read s id = Except.ok (send_members s id, []) ∧
      alook id (send_members s id).connections =
        some { c with
               written := c.written ++ [ExternalMsg.members s.node s.members.get_orset],
               members_sent := true } ∧
      (∀ cid c', alook cid s.connections = some c' → cid ≠ id →
        alook cid (send_members s id).connections = some c')) ∧
    (∀ id c, alook id s.connections = some c → c.members_sent = false →
      ∀ m : ExternalMsg T, alook id (broadcast s m).connections = some c) := by
  constructor
  · intro id c hc hm
    have hms : members_sent s id = some false := by
      rw [members_sent, hc, Option.map_some']
      rw [hm]
    refine ⟨?_, ?_, ?_⟩
    · rw [read, hms]
    · rw [send_members, hc]
      show alook id (ains id _ s.connections) = _
      rw [alook_ains_self]
    · intro cid c' hc' hne
      rw [send_members, hc]
      show alook cid (ains id _ s.connections) = _
      rw [alook_ains_ne _ _ hne, hc']
  · intro id c hc hm m
    rw [alook_broadcast, hc, Option.map_some', hm]
    simp

/-- The snapshot fixture: connection 3 has not been sent the membership
snapshot yet. -/
def cs10 : ClusterServer Nat :=
  { pid := pidOf nodeA, node := nodeA, members := { all := [nodeA, nodeB] },
    connections := [(3, { connOf false none 0 with members_sent := false })],
    established := [],
    timer_wheel := { buckets := [[3]], current := 0 },
    listener_id := 100, timer_id := 101, executor_timer_id := 102,
    next_id := 4, pending_accepts := [] }

/-- Witness for C10: the read on the unsent connection 3 sends the
snapshot instead of decoding. -/
theorem C10_snapshot_first_witness :
    read cs10 3 = Except.ok (send_members cs10 3, []) ∧
    alook 3 (broadcast cs10 ExternalMsg.ping).connections =
      some { connOf false none 0 with members_sent := false } :=
  ⟨((C10_snapshot_first Nat cs10).1 3
      { connOf false none 0 with members_sent := false } rfl rfl).1,
   (C10_snapshot_first Nat cs10).2 3
      { connOf false none 0 with members_sent := false } rfl rfl ExternalMsg.ping⟩

theorem alook_aerase_none {K V : Type} [DecidableEq K] {k k' : K}
    (m : List (K × V)) (h : alook k' m = none) : alook k' (aerase k m) = none := by
  by_cases he : k' = k
  · subst he
    exact alook_aerase_self k' m
  · rw [alook_aerase_ne m he]
    exact h

theorem connect_all_established (l : List NodeId) :
    ∀ s : ClusterServer T, (connect_all s l).1.established = s.established := by
  induction l with
  | nil => intro s; rfl
  | cons n rest ih =>
    intro s
    rw [connect_all]
    exact ih _

theorem disconnect_established_conn_none (l : List NodeId) :
    ∀ (s : ClusterServer T) (id : Nat), alook id s.connections = none →
      alook id (disconnect_established s l).1.connections = none := by
  induction l with
  | nil => intro s id h; exact h
  | cons n rest ih =>
    intro s id h
    rw [disconnect_established]
    cases h1 : alook n s.established with
    | none => exact ih s id h
    | some i =>
      dsimp only
      cases h2 : alook i s.connections with
      | none => exact ih _ id h
      | some conn =>
        dsimp only
        exact ih _ id (alook_aerase_none s.connections h)

theorem disconnect_established_est_none (l : List NodeId) :
    ∀ (s : ClusterServer T) (n : NodeId), alook n s.established = none →
      alook n (disconnect_established s l).1.established = none := by
  induction l with
  | nil => intro s n h; exact h
  | cons m rest ih =>
    intro s n h
    rw [disconnect_established]
    cases h1 : alook m s.established with
    | none => exact ih s n h
    | some i =>
      dsimp only
      cases h2 : alook i s.connections with
      | none => exact ih _ n (alook_aerase_none s.established h)
      | some conn =>
        dsimp only
        exact ih _ n (alook_aerase_none s.established h)

theorem disconnect_removes (l : List NodeId) :
    ∀ s : ClusterServer T, l.Nodup →
      ∀ n ∈ l, ∀ id, alook n s.established = some id →
        alook n (disconnect_established s l).1.established = none ∧
        alook id (disconnect_established s l).1.connections = none := by
  induction l with
  | nil => intro s _ n hn; exact absurd hn (List.not_mem_nil n)
  | cons m rest ih =>
    intro s hnd n hn id hest
    rcases List.mem_cons.1 hn with rfl | hn'
    · rw [disconnect_established, hest]
      dsimp only
      cases h2 : alook id s.connections with
      | none =>
        refine ⟨?_, ?_⟩
        · exact disconnect_established_est_none rest _ n
            (alook_aerase_self n s.established)
        · exact disconnect_established_conn_none rest _ id h2
      | some conn =>
        dsimp only
        refine ⟨?_, ?_⟩
        · exact disconnect_established_est_none rest _ n
            (alook_aerase_self n s.established)
        · exact disconnect_established_conn_none rest _ id
            (alook_aerase_self id s.connections)
    · have hne : n ≠ m := fun he => (List.nodup_cons.1 hnd).1 (he ▸ hn')
      rw [disconnect_established]
      cases h1 : alook m s.established with
      | none => exact ih s (List.nodup_cons.1 hnd).2 n hn' id hest
      | some i =>
        dsimp only
        cases h2 : alook i s.connections with
        | none =>
          exact ih _ (List.nodup_cons.1 hnd).2 n hn' id
            ((alook_aerase_ne s.established hne).trans hest)
        | some conn =>
          dsimp only
          exact ih _ (List.nodup_cons.1 hnd).2 n hn' id
            ((alook_aerase_ne s.established hne).trans hest)

/-- C7 (amended): a reconciliation pass removes from the established
index and from the connection table every connection that is recorded in
the established index for a peer of to_disconnect; connections whose
peer identity is known but that are not in the established index (such
as pending outgoing connections) are not closed by the pass. -/
theorem C7_disconnect_completeness (T : Type) (s : ClusterServer T)
    (hm : s.node ∈ members_all s) :
    ∀ n ∈ to_disconnect s, ∀ id, alook n s.established = some id →
      alook n ((check_connections s).1).established = none ∧
      alook id ((check_connections s).1).connections = none := by
  intro n hn id hest
  rw [check_connections, if_pos hm]
  dsimp only
  refine disconnect_removes (to_disconnect s) _ ?_ n hn id ?_
  · exact List.Nodup.filter _ (List.nodup_dedup _)
  · rw [connect_all_established]
    exact hest

/-- The disconnect fixture: a pending client connection to nodeD, whose
peer is no longer desired, and no established entry for it. -/
def cs7 : ClusterServer Nat :=
  { pid := pidOf nodeA, node := nodeA, members := { all := [nodeA] },
    connections := [(0, connOf true (some nodeD) 0)],
    established := [],
    timer_wheel := { buckets := [[0]], current := 0 },
    listener_id := 100, timer_id := 101, executor_timer_id := 102,
    next_id := 1, pending_accepts := [] }

/-- Counterexample for C7 as stated: nodeD is in to_disconnect, the
pending connection 0 carries peer identity nodeD, yet after the
reconciliation pass connection 0 is still in the table. -/
theorem C7_counterexample :
    nodeD ∈ to_disconnect cs7 ∧
    (alook 0 cs7.connections).map Conn.node = some (some nodeD) ∧
    (alook 0 ((check_connections cs7).1).connections).map Conn.node =
      some (some nodeD) :=
  ⟨by decide, by decide, by decide⟩

/-- The established-disconnect fixture: nodeD is established on
connection 0 but no longer desired. -/
def cs7b : ClusterServer Nat :=
  { pid := pidOf nodeA, node := nodeA, members := { all := [nodeA] },
    connections := [(0, connOf true (some nodeD) 0)],
    established := [(nodeD, 0)],
    timer_wheel := { buckets := [[0]], current := 0 },
    listener_id := 100, timer_id := 101, executor_timer_id := 102,
    next_id := 1, pending_accepts := [] }

/-- Witness for C7: the established connection 0 of the undesired nodeD
is removed by the pass. -/
theorem C7_disconnect_completeness_witness :
    cs7b.node ∈ members_all cs7b ∧ nodeD ∈ to_disconnect cs7b ∧
    alook nodeD ((check_connections cs7b).1).established = none ∧
    alook 0 ((check_connections cs7b).1).connections = none := by
  have h := C7_disconnect_completeness Nat cs7b (by decide) nodeD (by decide) 0 rfl
  exact ⟨by decide, by decide, h.1, h.2⟩

theorem close_conn_none (s : ClusterServer T) (q id : Nat)
    (h : alook id s.connections = none) :
    alook id (close s q).1.connections = none := by
  rw [close]
  cases h1 : alook q s.connections with
  | none => exact h
  | some conn =>
    dsimp only
    cases hn : conn.node with
    | none =>
      dsimp only
      exact alook_aerase_none s.connections h
    | some node =>
      dsimp only
      cases h2 : alook node s.established with
      | none =>
        dsimp only
        exact alook_aerase_none s.connections h
      | some eid =>
        dsimp only
        split
        · exact alook_aerase_none s.connections h
        · exact alook_aerase_none s.connections h

theorem close_removes_self (s : ClusterServer T) (id : Nat) :
    alook id (close s id).1.connections = none := by
  rw [close]
  cases h1 : alook id s.connections with
  | none => exact h1
  | some conn =>
    dsimp only
    cases hn : conn.node with
    | none =>
      dsimp only
      exact alook_aerase_self id s.connections
    | some node =>
      dsimp only
      cases h2 : alook node s.established with
      | none =>
        dsimp only
        exact alook_aerase_self id s.connections
      | some eid =>
        dsimp only
        split
        · exact alook_aerase_self id s.connections
        · exact alook_aerase_self id s.connections

theorem close_conn_other (s : ClusterServer T) (q id : Nat) (h : id ≠ q) :
    alook id (close s q).1.connections = alook id s.connections := by
  rw [close]
  cases h1 : alook q s.connections with
  | none => rfl
  | some conn =>
    dsimp only
    cases hn : conn.node with
    | none =>
      dsimp only
      exact alook_aerase_ne s.connections h
    | some node =>
      dsimp only
      cases h2 : alook node s.established with
      | none =>
        dsimp only
        exact alook_aerase_ne s.connections h
      | some eid =>
        dsimp only
        split
        · exact alook_aerase_ne s.connections h
        · exact alook_aerase_ne s.connections h

theorem close_all_conn_none (l : List Nat) :
    ∀ (s : ClusterServer T) (id : Nat), alook id s.connections = none →
      alook id (close_all s l).1.connections = none := by
  induction l with
  | nil => intro s id h; exact h
  | cons q rest ih =>
    intro s id h
    rw [close_all]
    exact ih _ id (close_conn_none s q id h)

theorem close_all_removes (l : List Nat) :
    ∀ s : ClusterServer T, ∀ id ∈ l,
      alook id (close_all s l).1.connections = none := by
  induction l with
  | nil => intro s id h; exact absurd h (List.not_mem_nil id)
  | cons q rest ih =>
    intro s id h
    rw [close_all]
    rcases List.mem_cons.1 h with rfl | h'
    · exact close_all_conn_none rest _ id (close_removes_self s id)
    · exact ih _ id h'

theorem close_all_other (l : List Nat) :
    ∀ (s : ClusterServer T) (id : Nat), id ∉ l →
      alook id (close_all s l).1.connections = alook id s.connections := by
  induction l with
  | nil => intro s id _; rfl
  | cons q rest ih =>
    intro s id h
    rw [close_all]
    rw [ih _ id (fun hc => h (List.mem_cons_of_mem q hc))]
    exact close_conn_other s q id (fun hc => h (hc ▸ List.mem_cons_self q rest))

theorem handle_poll_notifications_append (ns1 ns2 : List Notif) :
    ∀ s : ClusterServer T,
      handle_poll_notifications s (ns1 ++ ns2) =
        ((handle_poll_notifications (handle_poll_notifications s ns1).1 ns2).1,
         (handle_poll_notifications s ns1).2.1 ++
           (handle_poll_notifications (handle_poll_notifications s ns1).1 ns2).2.1,
         (handle_poll_notifications s ns1).2.2 ++
           (handle_poll_notifications (handle_poll_notifications s ns1).1 ns2).2.2) := by
  induction ns1 with
  | nil =>
    intro s
    simp [handle_poll_notifications]
  | cons n rest ih =>
    intro s
    rw [List.cons_append]
    rw [show handle_poll_notifications s (n :: rest) =
        (match dispatch_notification s n with
         | Except.ok p =>
           ((handle_poll_notifications p.1 rest).1,
            p.2 ++ (handle_poll_notifications p.1 rest).2.1,
            (handle_poll_notifications p.1 rest).2.2)
         | Except.error e =>
           ((handle_poll_notifications s rest).1,
            (handle_poll_notifications s rest).2.1,
            e :: (handle_poll_notifications s rest).2.2)) from rfl]
    rw [show handle_poll_notifications s (n :: (rest ++ ns2)) =
        (match dispatch_notification s n with
         | Except.ok p =>
           ((handle_poll_notifications p.1 (rest ++ ns2)).1,
            p.2 ++ (handle_poll_notifications p.1 (rest ++ ns2)).2.1,
            (handle_poll_notifications p.1 (rest ++ ns2)).2.2)
         | Except.error e =>
           ((handle_poll_notifications s (rest ++ ns2)).1,
            (handle_poll_notifications s (rest ++ ns2)).2.1,
            e :: (handle_poll_notifications s (rest ++ ns2)).2.2)) from rfl]
    cases hd : dispatch_notification s n with
    | ok p =>
      dsimp only
      rw [ih p.1]
      simp [List.append_assoc]
    | error e =>
      dsimp only
      rw [ih s]
      simp [List.append_assoc]

/-- C5: a readiness batch is processed to the end (splitting the batch
composes), its errors are aggregated into one report, and at run level
the offending connections — exactly those the aggregated error names —
are closed while the loop always continues after a poll-notification
error. -/
theorem C5_error_isolation (T : Type) :
    (∀ (s : ClusterServer T) (ns1 ns2 : List Notif),
      handle_poll_notifications s (ns1 ++ ns2) =
        ((handle_poll_notifications (handle_poll_notifications s ns1).1 ns2).1,
         (handle_poll_notifications s ns1).2.1 ++
           (handle_poll_notifications (handle_poll_notifications s ns1).1 ns2).2.1,
         (handle_poll_notifications s ns1).2.2 ++
           (handle_poll_notifications (handle_poll_notifications s ns1).1 ns2).2.2)) ∧
    (∀ (s : ClusterServer T) (ns : List Notif),
      (handle_poll_notifications s ns).2.2 ≠ [] →
      (handle_cluster_msg s (ClusterMsg.pollNotifications ns)).2.2 =
        some (ErrKind.pollNotificationErrors (handle_poll_notifications s ns).2.2)) ∧
    (∀ (s : ClusterServer T) (ns : List Notif),
      (run_step s (ClusterMsg.pollNotifications ns)).2.2 = true ∧
      (∀ id, id ∈ (ErrKind.pollNotificationErrors
          (handle_poll_notifications s ns).2.2).get_ids →
        alook id (run_step s (ClusterMsg.pollNotifications ns)).1.connections = none) ∧
      (∀ id, id ∉ (ErrKind.pollNotificationErrors
          (handle_poll_notifications s ns).2.2).get_ids →
        alook id (run_step s (ClusterMsg.pollNotifications ns)).1.connections =
          alook id (handle_poll_notifications s ns).1.connections)) := by
  refine ⟨fun s ns1 ns2 => handle_poll_notifications_append ns1 ns2 s, ?_, ?_⟩
  · intro s ns h
    simp only [handle_cluster_msg]
    rw [if_neg (by simpa [List.isEmpty_iff] using h)]
  · intro s ns
    cases hq : (handle_poll_notifications s ns).2.2 with
    | nil =>
      have hrs : (run_step s (ClusterMsg.pollNotifications ns)).1 =
          (handle_poll_notifications s ns).1 := by
        simp [run_step, handle_cluster_msg, hq]
      refine ⟨?_, ?_, ?_⟩
      · simp [run_step, handle_cluster_msg, hq]
      · intro id hid
        exact absurd hid (List.not_mem_nil id)
      · intro id _
        rw [hrs]
    | cons e es =>
      have hrs : (run_step s (ClusterMsg.pollNotifications ns)).1 =
          (close_all (handle_poll_notifications s ns).1
            (ErrKind.pollNotificationErrors (e :: es)).get_ids).1 := by
        simp [run_step, handle_cluster_msg, hq]
      refine ⟨?_, ?_, ?_⟩
      · simp [run_step, handle_cluster_msg, hq, ErrKind.fatal]
      · intro id hid
        rw [hrs]
        exact close_all_removes _ _ id hid
      · intro id hid
        rw [hrs]
        exact close_all_other _ _ id hid

/-- The batch fixture: connection 1 has a pending decode failure,
connection 2 has a valid Ping frame queued; both readable. -/
def cs5 : ClusterServer Nat :=
  { pid := pidOf nodeA, node := nodeA, members := { all := [nodeA, nodeB, nodeC] },
    connections :=
      [(1, { connOf true (some nodeB) 0 with incoming := Except.error [9] }),
       (2, { connOf true (some nodeC) 1 with incoming := Except.ok [ExternalMsg.ping] })],
    established := [(nodeB, 1), (nodeC, 2)],
    timer_wheel := { buckets := [[1], [2]], current := 0 },
    listener_id := 100, timer_id := 101, executor_timer_id := 102,
    next_id := 3, pending_accepts := [] }

def ns5 : List Notif :=
  [{ id := 1, event := Ev.readable }, { id := 2, event := Ev.readable }]

/-- Witness for C5 on the fixture: the loop continues, the broken
connection 1 is closed, the healthy connection 2 survives the
cleanup. -/
theorem C5_error_isolation_witness :
    (run_step cs5 (ClusterMsg.pollNotifications ns5)).2.2 = true ∧
    alook 1 (run_step cs5 (ClusterMsg.pollNotifications ns5)).1.connections = none ∧
    alook 2 (run_step cs5 (ClusterMsg.pollNotifications ns5)).1.connections =
      alook 2 (handle_poll_notifications cs5 ns5).1.connections :=
  ⟨((C5_error_isolation Nat).2.2 cs5 ns5).1,
   ((C5_error_isolation Nat).2.2 cs5 ns5).2.1 1 (by decide),
   ((C5_error_isolation Nat).2.2 cs5 ns5).2.2 2 (by decide)⟩

/-- The established-index invariant of the spec: at most one entry per
NodeId (no duplicate keys), and every entry refers to a connection
currently in the table whose recorded peer identity is exactly that
node. -/
def EstInv (s : ClusterServer T) : Prop :=
  (s.established.map Prod.fst).Nodup ∧
  ∀ n id, alook n s.established = some id →
    ∃ c, alook id s.connections = some c ∧ c.node = some n

/-- Well-formedness: reactor ids of live connections are below the next
fresh id, and the established-index invariant holds. -/
def WF (s : ClusterServer T) : Prop :=
  (∀ p ∈ s.connections, p.1 < s.next_id) ∧ EstInv s

theorem mem_aerase {K V : Type} [DecidableEq K] {p : K × V} {k : K}
    {m : List (K × V)} (h : p ∈ aerase k m) : p ∈ m :=
  List.mem_of_mem_filter h

theorem mem_ains {K V : Type} [DecidableEq K] {p : K × V} {k : K} {v : V}
    {m : List (K × V)} (h : p ∈ ains k v m) : p = (k, v) ∨ p ∈ m := by
  rw [ains] at h
  rcases List.mem_cons.1 h with h | h
  · exact Or.inl h
  · exact Or.inr (List.mem_of_mem_filter h)

theorem alook_some_mem {K V : Type} [DecidableEq K] {k : K} {v : V} :
    ∀ {m : List (K × V)}, alook k m = some v → (k, v) ∈ m := by
  intro m
  induction m with
  | nil => intro h; exact Option.noConfusion h
  | cons p ps ih =>
    intro h
    rw [alook] at h
    by_cases hp : p.1 = k
    · rw [if_pos hp] at h
      injection h with h2
      cases p with
      | mk a b =>
        dsimp at hp h2
        subst hp
        subst h2
        exact List.mem_cons_self _ _
    · rw [if_neg hp] at h
      exact List.mem_cons_of_mem p (ih h)

theorem wf_members (s : ClusterServer T) (m : Members) (h : WF s) :
    WF { s with members := m } :=
  ⟨h.1, h.2.1, h.2.2⟩

theorem close_wf (s : ClusterServer T) (id : Nat) (h : WF s) : WF (close s id).1 := by
  rw [close]
  cases h1 : alook id s.connections with
  | none => exact h
  | some conn =>
    dsimp only
    have hfresh : ∀ p ∈ aerase id s.connections, p.1 < s.next_id :=
      fun p hp => h.1 p (mem_aerase hp)
    cases hn : conn.node with
    | none =>
      dsimp only
      refine ⟨hfresh, h.2.1, ?_⟩
      intro n j hj
      obtain ⟨c, hc, hcn⟩ := h.2.2 n j hj
      have hji : j ≠ id := by
        intro he
        subst he
        rw [h1] at hc
        injection hc with hc2
        subst hc2
        rw [hn] at hcn
        exact Option.noConfusion hcn
      exact ⟨c, by rw [alook_aerase_ne _ hji]; exact hc, hcn⟩
    | some node =>
      dsimp only
      cases h2 : alook node s.established with
      | none =>
        dsimp only
        refine ⟨hfresh, h.2.1, ?_⟩
        intro n j hj
        obtain ⟨c, hc, hcn⟩ := h.2.2 n j hj
        have hji : j ≠ id := by
          intro he
          subst he
          rw [h1] at hc
          injection hc with hc2
          subst hc2
          rw [hn] at hcn
          injection hcn with hcn2
          subst hcn2
          rw [hj] at h2
          exact Option.noConfusion h2
        exact ⟨c, by rw [alook_aerase_ne _ hji]; exact hc, hcn⟩
      | some eid =>
        dsimp only
        split
        · refine ⟨hfresh, keys_nodup_aerase node s.established h.2.1, ?_⟩
          intro n j hj
          have hnn : n ≠ node := by
            intro he
            subst he
            rw [alook_aerase_self] at hj
            exact Option.noConfusion hj
          rw [alook_aerase_ne _ hnn] at hj
          obtain ⟨c, hc, hcn⟩ := h.2.2 n j hj
          have hji : j ≠ id := by
            intro he
            subst he
            rw [h1] at hc
            injection hc with hc2
            subst hc2
            rw [hn] at hcn
            injection hcn with hcn2
            exact hnn hcn2.symm
          exact ⟨c, by rw [alook_aerase_ne _ hji]; exact hc, hcn⟩
        · refine ⟨hfresh,
            keys_nodup_ains node eid _ (keys_nodup_aerase node s.established h.2.1), ?_⟩
          intro n j hj
          by_cases hnn : n = node
          · subst hnn
            rw [alook_ains_self] at hj
            injection hj with hj2
            subst hj2
            obtain ⟨c, hc, hcn⟩ := h.2.2 n eid h2
            have hji : eid ≠ id := by assumption
            exact ⟨c, by rw [alook_aerase_ne _ hji]; exact hc, hcn⟩
          · rw [alook_ains_ne _ _ hnn, alook_aerase_ne _ hnn] at hj
            obtain ⟨c, hc, hcn⟩ := h.2.2 n j hj
            have hji : j ≠ id := by
              intro he
              subst he
              rw [h1] at hc
              injection hc with hc2
              subst hc2
              rw [hn] at hcn
              injection hcn with hcn2
              exact hnn hcn2.symm
            exact ⟨c, by rw [alook_aerase_ne _ hji]; exact hc, hcn⟩

theorem establish_insert_wf (s : ClusterServer T) (id : Nat) (from_ : NodeId)
    (h : WF s) (hfrom : alook from_ s.established = none)
    (hid : ∀ n, alook n s.established = some id → False) :
    WF (establish_insert s id from_) := by
  rw [establish_insert]
  cases h1 : alook id s.connections with
  | none => exact h
  | some conn =>
    dsimp only
    constructor
    · intro p hp
      rcases mem_ains hp with rfl | hp'
      · exact h.1 (id, conn) (alook_some_mem h1)
      · exact h.1 p hp'
    · refine ⟨keys_nodup_ains from_ id _ h.2.1, ?_⟩
      intro n j hj
      by_cases hnf : n = from_
      · subst hnf
        rw [alook_ains_self] at hj
        injection hj with hj2
        subst hj2
        exact ⟨_, alook_ains_self _ _ s.connections, rfl⟩
      · rw [alook_ains_ne _ _ hnf] at hj
        obtain ⟨c, hc, hcn⟩ := h.2.2 n j hj
        have hji : j ≠ id := fun he => hid n (he ▸ hj)
        exact ⟨c, by rw [alook_ains_ne _ _ hji]; exact hc, hcn⟩

theorem choose_eq (s : ClusterServer T) (id : Nat) (from_ : NodeId) (sid : Nat)
    (c : Conn T) (h3 : alook from_ s.established = some sid)
    (hc : alook sid s.connections = some c) :
    choose_connection_to_close s id from_ =
      some (if (c.is_client && NodeId.lt s.node from_ ||
                (!c.is_client && NodeId.lt from_ s.node)) = true
            then sid else id) := by
  rw [choose_connection_to_close, h3]
  dsimp only
  rw [hc]
  dsimp only
  by_cases hcond : (c.is_client && NodeId.lt s.node from_ ||
      (!c.is_client && NodeId.lt from_ s.node)) = true
  · rw [if_pos hcond, if_pos hcond]
  · rw [if_neg hcond, if_neg hcond]

theorem close_established_eq (s : ClusterServer T) (cid : Nat) (conn : Conn T)
    (nd : NodeId) (h1 : alook cid s.connections = some conn)
    (hn : conn.node = some nd) (h2 : alook nd s.established = some cid) :
    (close s cid).1.established = aerase nd s.established := by
  rw [close, h1]
  dsimp only
  rw [hn]
  dsimp only
  rw [h2]
  dsimp only
  rw [if_pos rfl]

theorem disconnect_established_wf (l : List NodeId) :
    ∀ s : ClusterServer T, WF s → WF (disconnect_established s l).1 := by
  induction l with
  | nil => intro s h; exact h
  | cons n rest ih =>
    intro s h
    rw [disconnect_established]
    cases k1 : alook n s.established with
    | none => exact ih s h
    | some id =>
      dsimp only
      cases k2 : alook id s.connections with
      | none =>
        refine ih _ ⟨h.1, keys_nodup_aerase n s.established h.2.1, ?_⟩
        intro n' j hj
        have hnn : n' ≠ n := by
          intro he
          subst he
          rw [alook_aerase_self] at hj
          exact Option.noConfusion hj
        rw [alook_aerase_ne _ hnn] at hj
        exact h.2.2 n' j hj
      | some conn =>
        dsimp only
        refine ih _ ⟨fun p hp => h.1 p (mem_aerase hp),
          keys_nodup_aerase n s.established h.2.1, ?_⟩
        intro n' j hj
        have hnn : n' ≠ n := by
          intro he
          subst he
          rw [alook_aerase_self] at hj
          exact Option.noConfusion hj
        rw [alook_aerase_ne _ hnn] at hj
        obtain ⟨c, hc, hcn⟩ := h.2.2 n' j hj
        have hji : j ≠ id := by
          intro he
          subst he
          rw [k2] at hc
          injection hc with hc2
          subst hc2
          obtain ⟨c2, hc2, hc2n⟩ := h.2.2 n _ k1
          rw [k2] at hc2
          injection hc2 with hc3
          subst hc3
          rw [hcn] at hc2n
          injection hc2n with hc4
          exact hnn hc4
        exact ⟨c, by rw [alook_aerase_ne _ hji]; exact hc, hcn⟩

theorem connect_all_wf (l : List NodeId) :
    ∀ s : ClusterServer T, WF s → WF (connect_all s l).1 := by
  induction l with
  | nil => intro s h; exact h
  | cons n rest ih =>
    intro s h
    rw [connect_all]
    simp only [connect, init_connection]
    refine ih _ ⟨?_, h.2.1, ?_⟩
    · intro p hp
      rcases mem_ains hp with rfl | hp'
      · exact Nat.lt_succ_self _
      · exact Nat.lt_succ_of_lt (h.1 p hp')
    · intro n' j hj
      obtain ⟨c, hc, hcn⟩ := h.2.2 n' j hj
      have hji : j ≠ s.next_id :=
        fun he => Nat.lt_irrefl _ (he ▸ h.1 _ (alook_some_mem hc))
      exact ⟨c, by rw [alook_ains_ne _ _ hji]; exact hc, hcn⟩

theorem check_connections_wf (s : ClusterServer T) (h : WF s) :
    WF (check_connections s).1 := by
  rw [check_connections]
  by_cases hm : s.node ∈ members_all s
  · rw [if_pos hm]
    exact disconnect_established_wf _ _ (connect_all_wf _ _ h)
  · rw [if_neg hm]
    refine ⟨fun p hp => absurd hp (List.not_mem_nil p), List.nodup_nil, ?_⟩
    intro n j hj
    exact Option.noConfusion hj

theorem establish_connection_wf (s : ClusterServer T) (id : Nat) (from_ : NodeId)
    (orset : List NodeId) (h : WF s)
    (hno : ∀ n, alook n s.established = some id → n = from_) :
    WF (establish_connection s id from_ orset).1 := by
  simp only [establish_connection]
  have h0 : WF { s with members := s.members.join orset } :=
    wf_members s _ h
  cases h3 : alook from_ s.established with
  | none =>
    have hch : choose_connection_to_close { s with members := s.members.join orset }
        id from_ = none := by
      rw [choose_connection_to_close]
      dsimp only
      rw [h3]
    rw [hch]
    dsimp only
    refine establish_insert_wf _ id from_ h0 h3 ?_
    intro n hn
    have he := hno n hn
    subst he
    rw [h3] at hn
    exact Option.noConfusion hn
  | some sid =>
    obtain ⟨c, hc, hcn⟩ := h.2.2 from_ sid h3
    have hch := choose_eq { s with members := s.members.join orset } id from_ sid c h3 hc
    rw [hch]
    dsimp only
    by_cases hcond : (c.is_client &&
        NodeId.lt ({ s with members := s.members.join orset } : ClusterServer T).node
          from_ ||
        (!c.is_client && NodeId.lt from_
          ({ s with members := s.members.join orset } : ClusterServer T).node)) = true
    · rw [if_pos hcond]
      by_cases hsi : sid = id
      · rw [if_pos hsi]
        exact close_wf _ sid h0
      · rw [if_neg hsi]
        have hest := close_established_eq
          ({ s with members := s.members.join orset }) sid c from_ hc hcn h3
        refine establish_insert_wf _ id from_ (close_wf _ sid h0) ?_ ?_
        · rw [hest]
          exact alook_aerase_self from_ s.established
        · intro n hn
          rw [hest] at hn
          have hnn : n ≠ from_ := by
            intro he
            subst he
            rw [alook_aerase_self] at hn
            exact Option.noConfusion hn
          rw [alook_aerase_ne _ hnn] at hn
          exact hnn (hno n hn)
    · rw [if_neg hcond, if_pos rfl]
      exact close_wf _ id h0

/-- C6 (amended): the established-index invariant — at most one entry
per NodeId and every entry pointing at a present connection whose
recorded peer identity is that node — is preserved by close, by the
reconciliation pass and by disconnect_established, and by
establish_connection provided the connection being established is not
already recorded in the index under a different NodeId. -/
theorem C6_established_index_invariant (T : Type) :
    (∀ (s : ClusterServer T) (id : Nat), WF s → WF (close s id).1) ∧
    (∀ s : ClusterServer T, WF s → WF (check_connections s).1) ∧
    (∀ (s : ClusterServer T) (l : List NodeId), WF s →
      WF (disconnect_established s l).1) ∧
    (∀ (s : ClusterServer T) (id : Nat) (from_ : NodeId) (orset : List NodeId),
      WF s → (∀ n, alook n s.established = some id → n = from_) →
      WF (establish_connection s id from_ orset).1) :=
  ⟨fun s id h => close_wf s id h,
   fun s h => check_connections_wf s h,
   fun s l h => disconnect_established_wf l s h,
   fun s id from_ orset h hno => establish_connection_wf s id from_ orset h hno⟩

/-- The invariant fixture: connection 0 is established for nodeA. -/
def cs6 : ClusterServer Nat :=
  { pid := pidOf nodeC, node := nodeC, members := { all := [nodeC, nodeA] },
    connections := [(0, connOf true (some nodeA) 0)],
    established := [(nodeA, 0)],
    timer_wheel := { buckets := [[0]], current := 0 },
    listener_id := 100, timer_id := 101, executor_timer_id := 102,
    next_id := 1, pending_accepts := [] }

theorem cs6_wf : WF cs6 := by
  refine ⟨?_, ?_, ?_⟩
  · intro p hp
    rcases List.mem_singleton.1 hp with rfl
    exact Nat.lt_succ_self 0
  · decide
  · intro n id h
    rw [show alook n cs6.established =
        (if nodeA = n then some 0 else none) from rfl] at h
    by_cases hn : nodeA = n
    · rw [if_pos hn] at h
      injection h with h2
      subst h2
      refine ⟨connOf true (some nodeA) 0, rfl, ?_⟩
      rw [← hn]
      rfl
    · rw [if_neg hn] at h
      exact Option.noConfusion h

/-- Counterexample for C6 as stated: from the valid state cs6, a Members
frame claiming a different identity nodeB on the already-established
connection 0 leaves a stale entry (nodeA maps to connection 0 whose
recorded peer is now nodeB), so the invariant does not survive every
establish operation. -/
theorem C6_counterexample :
    EstInv cs6 ∧ ¬ EstInv ((establish_connection cs6 0 nodeB []).1) := by
  constructor
  · exact cs6_wf.2
  · intro h
    rcases h.2 nodeA 0 (by decide) with ⟨c, hc, hnode⟩
    have h1 : (alook 0 ((establish_connection cs6 0 nodeB []).1).connections).map
        Conn.node = some (some nodeB) := by decide
    rw [hc, Option.map_some', hnode] at h1
    injection h1 with h2
    exact absurd h2 (by decide)

/-- Witness for C6: the invariant is preserved by closing connection 0
of the fixture. -/
theorem C6_established_index_invariant_witness :
    WF cs6 ∧ WF (close cs6 0).1 :=
  ⟨cs6_wf, (C6_established_index_invariant Nat).1 cs6 0 cs6_wf⟩

end Rabble

